import Mathlib

/-!
Verification of the presales-vision repository against its specification.

Each section shallowly embeds one part of the Python source:

* `Retry`      — `GeminiClient._retry_with_delay` (src/core/gemini_client.py)
                 and the decorator `Gemini.retry_with_delay`
                 (src/cosmetics/common/gemini.py); the two are line-for-line
                 the same loop.
* `History`    — `HistoryManager` (src/furniture/admin/history.py).
* `SamsungAnalyzer` — `VisionAnalyzer._extract_attribute_value_reason` and
                 `_parse_attribute_data` (src/legacy/samsung/analyzer.py).
* `Auth`       — `UserManager` (src/furniture/ui/authDialog.py).
* `FileHandler`— `get_user_images` (src/web/utils/file_handler.py).
* `Analyzer`   — `ImageAnalyzer` (src/core/image_analyzer.py).
* `Editor`     — `DrawableGraphicsView` undo/redo (src/cosmetics/editor.py).

Python effects are made explicit: API calls become oracle functions passed as
arguments, exceptions become `Except`, the SQLite tables become lists of rows,
and `time.sleep` calls are collected into a list of slept durations.
-/

namespace Retry

/--
Embedding of `GeminiClient._retry_with_delay` (src/core/gemini_client.py,
lines 54–78) and of the identical decorator `Gemini.retry_with_delay`
(src/cosmetics/common/gemini.py, lines 67–86):

```python
delay = self.initial_delay
for attempt in range(self.max_retries):
    try:
        return func(*args, **kwargs)
    except Exception as e:
        if attempt == self.max_retries - 1:
            raise e
        print(...)
        time.sleep(delay)
        delay *= 2
```

The wrapped call is modelled as `f : Nat → Except E A` giving the outcome of
each attempt (`.ok` = the call returned, `.error` = the call raised).  The
result is the list of durations passed to `time.sleep`, paired with the
overall outcome: `some (.ok a)` = the value returned, `some (.error e)` = the
exception re-raised, `none` = the `for` loop was exhausted without returning
(Python would fall through and return `None`; unreachable for
`max_retries ≥ 1`).
-/
def retryGo (f : Nat → Except E A) (maxRetries : Nat) :
    Nat → Nat → List Nat × Option (Except E A)
  | attempt, delay =>
    if h : attempt < maxRetries then
      match f attempt with
      | .ok a => ([], some (.ok a))
      | .error e =>
        if attempt = maxRetries - 1 then ([], some (.error e))
        else
          let rest := retryGo f maxRetries (attempt + 1) (delay * 2)
          (delay :: rest.1, rest.2)
    else ([], none)
  termination_by attempt _ => maxRetries - attempt

/-- The helper `_retry_with_delay` with the constructor's configuration:
`self.max_retries = 3`, `self.initial_delay = 1`. -/
def retry_with_delay (f : Nat → Except E A) : List Nat × Option (Except E A) :=
  retryGo f 3 0 1

end Retry

namespace History

/-- One row of the SQLite `history` table (src/furniture/admin/history.py,
`init_database`).  Only the columns the claims mention are modelled:
`id` (INTEGER PRIMARY KEY AUTOINCREMENT), `user_id` (INTEGER, NULL when no
user is logged in), `timestamp`, `action_type`, `status`.  Timestamps are
abstracted to `Nat`. -/
structure Row where
  id : Nat
  user_id : Option Nat
  timestamp : Nat
  action_type : String
  status : String
deriving Repr, DecidableEq

/-- The `WHERE user_id = ? OR (user_id IS NULL AND ? IS NULL)` predicate used
throughout `HistoryManager`: the row belongs to the current user, or has NULL
`user_id` when nobody is logged in. -/
def ownedBy (user_id : Option Nat) (r : Row) : Bool :=
  r.user_id == user_id

/-- State of a `HistoryManager`: the `history` table plus the
`self.max_entries` field set in `__init__`. -/
structure Manager where
  rows : List Row
  max_entries : Nat
deriving Repr

/-- Embedding of `HistoryManager.__init__`: fresh database (the table starts empty) and
`self.max_entries = 1000`. -/
def Manager.init : Manager := { rows := [], max_entries := 1000 }

/-- The `AUTOINCREMENT` id for the next inserted row: one more than the largest
id in the table. -/
def nextId (rows : List Row) : Nat :=
  (rows.map Row.id).foldr max 0 + 1

/-- The `ORDER BY timestamp ASC LIMIT 1` victim: remove the first row owned
by `u` whose timestamp is minimal among the rows owned by `u` (SQLite leaves
the order of equal timestamps unspecified; the model takes the earliest row
in table order). -/
def removeOldest (u : Option Nat) (rows : List Row) : List Row :=
  match (rows.filter (ownedBy u)).map Row.timestamp with
  | [] => rows
  | t :: ts =>
    rows.eraseP (fun r => ownedBy u r && r.timestamp == ts.foldl min t)

/-- The `DELETE FROM history WHERE id IN (SELECT id … ORDER BY timestamp ASC
LIMIT k)` statement of `add_entry`: delete the `k` oldest rows owned by `u`. -/
def deleteOldest (u : Option Nat) : Nat → List Row → List Row
  | 0, rows => rows
  | k + 1, rows => deleteOldest u k (removeOldest u rows)

/--
Embedding of `HistoryManager.add_entry` (src/furniture/admin/history.py,
lines 63–104):

```python
cursor.execute('INSERT INTO history (...) VALUES (...)', ...)
conn.commit()
cursor.execute('SELECT COUNT(*) FROM history WHERE user_id = ? OR ...')
count = cursor.fetchone()[0]
if count > self.max_entries:
    cursor.execute('DELETE FROM history WHERE id IN (SELECT id ...
                    ORDER BY timestamp ASC LIMIT ?)', (..., count - self.max_entries))
```

`u` is the current user's id (from `self.user_manager`), `now` the value of
the `timestamp` column for the new row.  The JSON mirror
(`save_history_json`) and the Qt signal have no effect on the table and are
not modelled.  `newRow` is the inserted row.
-/
def newRow (rows : List Row) (u : Option Nat) (now : Nat)
    (action_type status : String) : Row :=
  { id := nextId rows, user_id := u, timestamp := now,
    action_type := action_type, status := status }

def Manager.add_entry (m : Manager) (u : Option Nat) (now : Nat)
    (action_type : String) (status : String) : Manager :=
  let inserted := m.rows ++ [newRow m.rows u now action_type status]
  let count := (inserted.filter (ownedBy u)).length
  if count > m.max_entries then
    { m with rows := deleteOldest u (count - m.max_entries) inserted }
  else
    { m with rows := inserted }

/-- Number of stored entries owned by user `u`. -/
def Manager.count (m : Manager) (u : Option Nat) : Nat :=
  (m.rows.filter (ownedBy u)).length

/-- A run of `n` consecutive `add_entry` calls by the same user starting from a fresh
manager (timestamps 0, 1, …, n-1). -/
def addN (u : Option Nat) : Nat → Manager
  | 0 => Manager.init
  | n + 1 => (addN u n).add_entry u n "test" "success"

lemma foldl_min_mem (ts : List Nat) (t : Nat) :
    ts.foldl min t = t ∨ ts.foldl min t ∈ ts := by
  induction ts generalizing t with
  | nil => exact Or.inl rfl
  | cons t' ts ih =>
    simp only [List.foldl_cons]
    have hmin : min t t' = t ∨ min t t' = t' := by omega
    rcases ih (min t t') with h | h
    · rcases hmin with h2 | h2
      · exact Or.inl (by rw [h, h2])
      · exact Or.inr (by rw [h, h2]; exact List.mem_cons_self _ _)
    · exact Or.inr (List.mem_cons_of_mem _ h)

lemma countP_eraseP (p q : Row → Bool) (himp : ∀ r, q r = true → p r = true)
    (l : List Row) (hex : ∃ r ∈ l, q r = true) :
    (l.eraseP q).countP p + 1 = l.countP p := by
  induction l with
  | nil => simp at hex
  | cons a l ih =>
    cases hqa : q a with
    | true =>
      simp only [List.eraseP_cons, hqa, cond_true]
      simp [List.countP_cons, himp a hqa]
    | false =>
      simp only [List.eraseP_cons, hqa, cond_false]
      obtain ⟨r, hr, hqr⟩ := hex
      rcases List.mem_cons.mp hr with rfl | hrl
      · rw [hqa] at hqr; exact absurd hqr (by simp)
      · rw [List.countP_cons, List.countP_cons, ← ih ⟨r, hrl, hqr⟩]
        omega

lemma removeOldest_countP (u : Option Nat) (rows : List Row)
    (hpos : 0 < rows.countP (ownedBy u)) :
    (removeOldest u rows).countP (ownedBy u) + 1 = rows.countP (ownedBy u) := by
  have hne : rows.filter (ownedBy u) ≠ [] := by
    intro hnil
    rw [List.countP_eq_length_filter, hnil] at hpos
    simp at hpos
  unfold removeOldest
  rcases hmap : (rows.filter (ownedBy u)).map Row.timestamp with _ | ⟨t, ts⟩
  · exact absurd (List.map_eq_nil_iff.mp hmap) hne
  · have hmem : ts.foldl min t ∈ t :: ts := by
      rcases foldl_min_mem ts t with h | h
      · rw [h]; exact List.mem_cons_self _ _
      · exact List.mem_cons_of_mem _ h
    rw [← hmap] at hmem
    obtain ⟨r, hrf, hrt⟩ := List.mem_map.mp hmem
    have hro : ownedBy u r = true := List.of_mem_filter hrf
    have hrmem : r ∈ rows := List.mem_of_mem_filter hrf
    refine countP_eraseP _ _ (fun r h => ?_) rows ⟨r, hrmem, by simp [hro, hrt]⟩
    cases hor : ownedBy u r
    · rw [hor] at h; simp at h
    · rfl

lemma deleteOldest_countP (u : Option Nat) :
    ∀ (k : Nat) (rows : List Row), k ≤ rows.countP (ownedBy u) →
    (deleteOldest u k rows).countP (ownedBy u) = rows.countP (ownedBy u) - k := by
  intro k
  induction k with
  | zero => intro rows _; simp [deleteOldest]
  | succ k ih =>
    intro rows hk
    have hpos : 0 < rows.countP (ownedBy u) := Nat.lt_of_lt_of_le (Nat.succ_pos k) hk
    have hrem := removeOldest_countP u rows hpos
    unfold deleteOldest
    rw [ih (removeOldest u rows) (by omega)]
    omega

lemma count_add_entry (m : Manager) (u : Option Nat) (now : Nat)
    (a s : String) :
    (m.add_entry u now a s).count u = min (m.count u + 1) m.max_entries := by
  have hcnt :
      ((m.rows ++ [newRow m.rows u now a s]).filter (ownedBy u)).length
      = (m.rows.filter (ownedBy u)).length + 1 := by
    rw [List.filter_append]
    simp [ownedBy, newRow]
  unfold Manager.add_entry Manager.count
  dsimp only
  split_ifs with hgt
  · rw [← List.countP_eq_length_filter,
      deleteOldest_countP u _ _ (by rw [List.countP_eq_length_filter]; omega),
      List.countP_eq_length_filter, hcnt]
    rw [hcnt] at hgt
    omega
  · rw [hcnt]
    rw [hcnt] at hgt
    omega

lemma count_addN (u : Option Nat) (n : Nat) :
    (addN u n).count u = min n 1000 := by
  have hmax : ∀ k, (addN u k).max_entries = 1000 := by
    intro k
    induction k with
    | zero => rfl
    | succ k ih =>
      show (Manager.add_entry _ _ _ _ _).max_entries = 1000
      unfold Manager.add_entry
      dsimp only
      split <;> exact ih
  induction n with
  | zero => rfl
  | succ n ih =>
    show (Manager.add_entry _ _ _ _ _).count u = _
    rw [count_add_entry, ih, hmax]
    omega

end History

namespace Py

/-!
Executable models of the Python string primitives the sources use
(`str.lower`, `str.replace`, `str.strip`, `str.startswith`, `str.endswith`),
written over the character list of the string.  ASCII letters are lowercased
as Python does; the repository's data is ASCII and Korean, and Korean has no
case.
-/

/-- Python `s.lower()`. -/
def lower (s : String) : String :=
  String.mk (s.toList.map Char.toLower)

/-- Python `s.startswith(pre)`. -/
def startsWith (s pre : String) : Bool :=
  pre.toList.isPrefixOf s.toList

/-- Python `s.endswith(suffix)`. -/
def endsWith (s suffix : String) : Bool :=
  suffix.toList.isSuffixOf s.toList

/-- Python `s.strip()`: drop whitespace from both ends. -/
def strip (s : String) : String :=
  String.mk (((s.toList.dropWhile Char.isWhitespace).reverse.dropWhile
    Char.isWhitespace).reverse)

/-- Replace every (leftmost, non-overlapping) occurrence of the non-empty
pattern `p :: ps` by `rep`.  Each step consumes at least one character, so
fuel equal to the list length suffices; the recursion is structural on the
fuel so that the function evaluates inside the kernel. -/
def replaceAux (p : Char) (ps rep : List Char) : Nat → List Char → List Char
  | 0, l => l
  | _, [] => []
  | fuel + 1, c :: rest =>
    if (p :: ps).isPrefixOf (c :: rest) then
      rep ++ replaceAux p ps rep fuel (rest.drop ps.length)
    else
      c :: replaceAux p ps rep fuel rest

/-- Python `s.replace(pat, rep)`.  (The behaviour for an empty pattern is not
needed: the sources only replace `' '` and `'·'`.) -/
def replace (s pat rep : String) : String :=
  match pat.toList with
  | [] => s
  | p :: ps =>
    String.mk (replaceAux p ps rep.toList s.toList.length s.toList)

end Py

namespace SamsungAnalyzer

/-- A parsed JSON attribute value as handled by
`VisionAnalyzer._parse_attribute_data` (src/legacy/samsung/analyzer.py):
either a dictionary of string fields (`{"value": …, "reason": …}`) or a bare
string leaf.  The analyzer's prompts request string-valued fields, so JSON
values are modelled as strings. -/
inductive AttrData where
  | obj (entries : List (String × String))
  | leaf (v : String)
deriving Repr, DecidableEq

/--
Embedding of `VisionAnalyzer._parse_attribute_data` (lines 173–198):

```python
if isinstance(attr_data, dict):
    value = attr_data.get('value', '')
    reason = attr_data.get('reason', '')
    if not value:
        meaningful_values = [v for v in attr_data.values()
                             if v and str(v).strip() and str(v) != 'null']
        if meaningful_values:
            value = str(meaningful_values[0])
else:
    value = str(attr_data) if attr_data else ''
if value and not reason:
    reason = f'{attr_key} 분석 결과'
if value and (value.startswith('{') or value == 'null' or value.lower() == 'none'):
    value = ''
return value.strip(), reason.strip()
```

Python's string truthiness (`if value`) is non-emptiness; `dict.get(k, '')`
is `(entries.lookup k).getD ""`.
-/
def parse_attribute_data (attr_data : AttrData) (attr_key : String) :
    String × String :=
  let vr : String × String :=
    match attr_data with
    | .obj entries =>
      let value := (entries.lookup "value").getD ""
      let reason := (entries.lookup "reason").getD ""
      if value = "" then
        let meaningful := (entries.map Prod.snd).filter
          (fun v => !(v = "") && !(Py.strip v = "") && !(v = "null"))
        match meaningful with
        | m :: _ => (m, reason)
        | [] => (value, reason)
      else (value, reason)
    | .leaf v => (if v ≠ "" then v else "", "")
  let value := vr.1
  let reason := vr.2
  let reason := if value ≠ "" ∧ reason = "" then attr_key ++ " 분석 결과" else reason
  let value :=
    if value ≠ "" ∧ (Py.startsWith value "\x7b" ∨ value = "null" ∨ Py.lower value = "none")
    then "" else value
  (Py.strip value, Py.strip reason)

/-- The hardcoded dictionary of Korean/English synonym lists (`key_mappings`,
lines 133–151). -/
def key_mappings : List (String × List String) :=
  [("색상", ["color", "컬러", "colour"]),
   ("주요 소재", ["material", "소재", "materials", "재료", "상판 소재", "프레임 소재"]),
   ("유형", ["type", "타입"]),
   ("형태", ["shape", "form"]),
   ("침구 사이즈", ["size", "사이즈", "크기", "침구사이즈"]),
   ("단 수", ["단수", "단", "tier", "level"]),
   ("우드톤", ["wood_tone", "woodtone", "우드", "wood"]),
   ("도어 형태", ["door_type", "door", "도어", "문"]),
   ("다리", ["leg", "legs", "다리", "받침"]),
   ("바퀴", ["wheel", "wheels", "바퀴", "캐스터"]),
   ("서랍", ["drawer", "drawers", "서랍"]),
   ("헤드 유무", ["head", "헤드", "headboard", "헤드보드"]),
   ("프레임 형태", ["frame", "프레임", "frame_type"]),
   ("스타일", ["style"]),
   ("무늬", ["pattern", "패턴"]),
   ("타겟 고객", ["target", "타겟"]),
   ("타겟 연령층", ["age", "연령", "age_group"])]

/-- The cleaning step `attr_key.lower().replace(' ', '').replace('·', '')` of stage 3 (lines 162-164). -/
def cleanKey (k : String) : String :=
  Py.replace (Py.replace (Py.lower k) " " "") "·" ""

/-- The stage-2 loop (lines 153–159): `for mapped_key in possible_keys: if
mapped_key in attributes: …; if value: return value, reason`. -/
def tryMappedKeys (attributes : List (String × AttrData)) (attr_key : String) :
    List String → Option (String × String)
  | [] => none
  | k :: ks =>
    match attributes.lookup k with
    | some d =>
      let vr := parse_attribute_data d attr_key
      if vr.1 ≠ "" then some vr else tryMappedKeys attributes attr_key ks
    | none => tryMappedKeys attributes attr_key ks

/-- The stage-3 loop (lines 162–169): iterate `attributes.keys()` in order,
compare cleaned keys, return the first non-empty parsed value.  (Python dict
keys are unique, so `attributes[key]` is the iterated entry's value.) -/
def tryCleanKeys (attr_key : String) :
    List (String × AttrData) → Option (String × String)
  | [] => none
  | (k, d) :: rest =>
    if cleanKey k = cleanKey attr_key then
      let vr := parse_attribute_data d attr_key
      if vr.1 ≠ "" then some vr else tryCleanKeys attr_key rest
    else tryCleanKeys attr_key rest

/--
Embedding of `VisionAnalyzer._extract_attribute_value_reason`
(lines 120–171).  The attributes dictionary is an association list in
insertion order; each Python early `return` becomes an `Option` short
circuit.
-/
def extract_attribute_value_reason (attributes : List (String × AttrData))
    (attr_key : String) : String × String :=
  let direct :=
    match attributes.lookup attr_key with
    | some d =>
      let vr := parse_attribute_data d attr_key
      if vr.1 ≠ "" then some vr else none
    | none => none
  match direct with
  | some vr => vr
  | none =>
    match tryMappedKeys attributes attr_key
        ((key_mappings.lookup attr_key).getD []) with
    | some vr => vr
    | none =>
      match tryCleanKeys attr_key attributes with
      | some vr => vr
      | none => ("", attr_key ++ " 정보 없음")

/-- The function `parse_attribute_data` wrapped as the "non-empty parsed (value, reason)"
of the specification: `some` exactly when the parsed value is non-empty. -/
def parsedNonEmpty (attr_key : String) (d : AttrData) : Option (String × String) :=
  let vr := parse_attribute_data d attr_key
  if vr.1 ≠ "" then some vr else none

/-- Stage 1 of the specification: exact key match. -/
def stage1 (attributes : List (String × AttrData)) (attr_key : String) :
    Option (String × String) :=
  (attributes.lookup attr_key).bind (parsedNonEmpty attr_key)

/-- Stage 2 of the specification: first synonym from the hardcoded
Korean/English synonym table that is present with a non-empty parsed value. -/
def stage2 (attributes : List (String × AttrData)) (attr_key : String) :
    Option (String × String) :=
  ((key_mappings.lookup attr_key).getD []).findSome?
    (fun k => (attributes.lookup k).bind (parsedNonEmpty attr_key))

/-- Stage 3 of the specification: first key equal to the requested key after
lowercasing and removing spaces and `·`, with a non-empty parsed value. -/
def stage3 (attributes : List (String × AttrData)) (attr_key : String) :
    Option (String × String) :=
  attributes.findSome?
    (fun kd => if cleanKey kd.1 = cleanKey attr_key
               then parsedNonEmpty attr_key kd.2 else none)

/-- The resolution procedure exactly as the specification words it: the first
of the three ordered stages that yields a non-empty parsed value, with the
`'<attr_key> 정보 없음'` fallback. -/
def extractSpec (attributes : List (String × AttrData)) (attr_key : String) :
    String × String :=
  (((stage1 attributes attr_key).orElse
      (fun _ => stage2 attributes attr_key)).orElse
      (fun _ => stage3 attributes attr_key)).getD
    ("", attr_key ++ " 정보 없음")

lemma tryMappedKeys_eq (attributes : List (String × AttrData))
    (attr_key : String) (ks : List String) :
    tryMappedKeys attributes attr_key ks
    = ks.findSome? (fun k => (attributes.lookup k).bind (parsedNonEmpty attr_key)) := by
  induction ks with
  | nil => rfl
  | cons k ks ih =>
    rw [List.findSome?_cons]
    unfold tryMappedKeys
    cases hl : attributes.lookup k with
    | none => simpa using ih
    | some d =>
      simp only [Option.bind_some, parsedNonEmpty]
      by_cases hv : (parse_attribute_data d attr_key).1 = ""
      · simpa [hv, parsedNonEmpty] using ih
      · simp [hv]

lemma tryCleanKeys_eq (attr_key : String) (l : List (String × AttrData)) :
    tryCleanKeys attr_key l
    = l.findSome? (fun kd => if cleanKey kd.1 = cleanKey attr_key
                             then parsedNonEmpty attr_key kd.2 else none) := by
  induction l with
  | nil => rfl
  | cons kd rest ih =>
    obtain ⟨k, d⟩ := kd
    rw [List.findSome?_cons]
    unfold tryCleanKeys
    by_cases hk : cleanKey k = cleanKey attr_key
    · simp only [hk, if_pos, parsedNonEmpty]
      by_cases hv : (parse_attribute_data d attr_key).1 = ""
      · simpa [hv, parsedNonEmpty] using ih
      · simp [hv]
    · simpa [hk] using ih

lemma extract_chain (lk : Option AttrData) (o2 o3 : Option (String × String))
    (attr_key : String) :
    (match
      (match lk with
       | some d =>
         let vr := parse_attribute_data d attr_key
         if vr.1 ≠ "" then some vr else none
       | none => none) with
     | some vr => vr
     | none =>
       match o2 with
       | some vr => vr
       | none =>
         match o3 with
         | some vr => vr
         | none => ("", attr_key ++ " 정보 없음"))
    = (((lk.bind (parsedNonEmpty attr_key)).orElse (fun _ => o2)).orElse
        (fun _ => o3)).getD ("", attr_key ++ " 정보 없음") := by
  cases lk with
  | none => cases o2 <;> cases o3 <;> rfl
  | some d =>
    show _ = (((parsedNonEmpty attr_key d).orElse (fun _ => o2)).orElse
      (fun _ => o3)).getD ("", attr_key ++ " 정보 없음")
    unfold parsedNonEmpty
    by_cases hv : (parse_attribute_data d attr_key).1 = ""
    · simp only [hv, ne_eq, not_true_eq_false, if_false]
      cases o2 <;> cases o3 <;> rfl
    · simp only [ne_eq, hv, not_false_eq_true, if_true]
      rfl

end SamsungAnalyzer

namespace Auth

/-- One row of the SQLite `users` table (src/furniture/ui/authDialog.py,
`UserManager.init_database`): `id INTEGER PRIMARY KEY AUTOINCREMENT`,
`username TEXT UNIQUE NOT NULL`, `email TEXT UNIQUE NOT NULL`,
`password_hash TEXT NOT NULL`, `company TEXT`, `last_login TIMESTAMP`,
`is_active BOOLEAN DEFAULT TRUE`.  Timestamps are abstracted to `Nat`
(`created_at` is not needed by any claim). -/
structure User where
  id : Nat
  username : String
  email : String
  password_hash : String
  company : String
  last_login : Option Nat
  is_active : Bool
deriving Repr, DecidableEq

/-- The `self.current_user` dictionary set on successful login. -/
structure CurrentUser where
  id : Nat
  username : String
  email : String
  company : String
deriving Repr, DecidableEq

/-- State of a `UserManager`: the `users` table and `self.current_user`. -/
structure State where
  users : List User
  current_user : Option CurrentUser
deriving Repr, DecidableEq

/-- The `WHERE (username = ? OR email = ?) AND password_hash = ? AND
is_active = TRUE` predicate of `UserManager.authenticate`.  `hash` models
`UserManager.hash_password`, i.e. `hashlib.sha256(password.encode())
.hexdigest()`; the claims depend only on which hash the code stores and
compares, not on SHA-256 internals, so the digest function is a parameter. -/
def authPred (hash : String → String) (username password : String)
    (u : User) : Bool :=
  (u.username == username || u.email == username)
    && u.password_hash == hash password && u.is_active

/--
Embedding of `UserManager.authenticate` (src/furniture/ui/authDialog.py,
lines 391–421).  `fetchone()` returns the first matching row in table
order; on success `last_login` of that row's id is set to `now`
(`datetime.now()`), `self.current_user` is filled from the row, and `True`
is returned; otherwise `False` is returned and the state is untouched.
-/
def authenticate (hash : String → String) (st : State)
    (username password : String) (now : Nat) : Bool × State :=
  match st.users.find? (authPred hash username password) with
  | some u =>
    (true,
     { users := st.users.map
         (fun v => if v.id = u.id then { v with last_login := some now } else v),
       current_user := some
         { id := u.id, username := u.username, email := u.email,
           company := u.company } })
  | none => (false, st)

/-- The `AUTOINCREMENT` id for the next inserted user. -/
def nextUserId (users : List User) : Nat :=
  (users.map User.id).foldr max 0 + 1

/-- Substring test on character lists: `pat` occurs somewhere in `s`. -/
def containsAux (pat : List Char) : List Char → Bool
  | [] => pat.isEmpty
  | c :: rest => pat.isPrefixOf (c :: rest) || containsAux pat rest

/-- Python `'<pat>' in str(e)` for the sqlite error message. -/
def strContains (s pat : String) : Bool :=
  containsAux pat.toList s.toList

/-- SQLite's message for a UNIQUE violation on column `col` of `users`,
the `str(e)` the `except sqlite3.IntegrityError` branch inspects. -/
def integrityMsg (col : String) : String :=
  "UNIQUE constraint failed: users." ++ col

/-- The `except sqlite3.IntegrityError as e` branch of
`UserManager.register_user` (lines 441–448):

```python
if 'username' in str(e):
    return False, "이미 존재하는 사용자명입니다."
elif 'email' in str(e):
    return False, "이미 등록된 이메일입니다."
else:
    return False, "회원가입 중 오류가 발생했습니다."
```
-/
def handleIntegrity (e : String) : Bool × String :=
  if strContains e "username" then (false, "이미 존재하는 사용자명입니다.")
  else if strContains e "email" then (false, "이미 등록된 이메일입니다.")
  else (false, "회원가입 중 오류가 발생했습니다.")

/--
Embedding of `UserManager.register_user` (lines 423–452).  The `INSERT`
raises `sqlite3.IntegrityError` when a UNIQUE constraint is violated;
SQLite checks the implicit UNIQUE indexes in column-declaration order
(`username` before `email`), and a failed `INSERT` leaves the table
unchanged.  On success one row is inserted with the hashed password,
`company`, default `is_active = TRUE` and NULL `last_login`.
-/
def register_user (hash : String → String) (st : State)
    (username email password company : String) : (Bool × String) × State :=
  if st.users.any (fun u => u.username == username) then
    (handleIntegrity (integrityMsg "username"), st)
  else if st.users.any (fun u => u.email == email) then
    (handleIntegrity (integrityMsg "email"), st)
  else
    ((true, "회원가입이 완료되었습니다."),
     { st with users := st.users ++
         [{ id := nextUserId st.users, username := username, email := email,
            password_hash := hash password, company := company,
            last_login := none, is_active := true }] })

lemma authPred_iff (hash : String → String) (username password : String)
    (u : User) :
    authPred hash username password u = true ↔
    (u.username = username ∨ u.email = username) ∧
      u.password_hash = hash password ∧ u.is_active = true := by
  simp [authPred, Bool.and_eq_true, Bool.or_eq_true, and_assoc]

end Auth

namespace History

/-- Descending-timestamp order used by `ORDER BY timestamp DESC`.  SQLite
leaves the relative order of equal timestamps unspecified; the model uses a
stable sort. -/
def tsDesc (a b : Row) : Prop := b.timestamp ≤ a.timestamp

instance : DecidableRel tsDesc := fun a b => Nat.decLe _ _

instance : IsTotal Row tsDesc := ⟨fun a b => Nat.le_total b.timestamp a.timestamp⟩

instance : IsTrans Row tsDesc := ⟨fun _ _ _ hab hbc => Nat.le_trans hbc hab⟩

/-- Truthiness of an optional string filter argument: Python `if action_type:`
is false for `None` and for the empty string. -/
def truthyStr : Option String → Bool
  | some s => s ≠ ""
  | none => false

/-- The dynamically built `WHERE` clause of `get_entries`: a conjunct is
added for each truthy filter argument. -/
def entryFilter (u : Option Nat) (action_type status : Option String)
    (start_date end_date : Option Nat) (r : Row) : Bool :=
  ownedBy u r
    && (if truthyStr action_type then r.action_type == action_type.getD "" else true)
    && (if truthyStr status then r.status == status.getD "" else true)
    && (match start_date with | some d => d ≤ r.timestamp | none => true)
    && (match end_date with | some d => r.timestamp ≤ d | none => true)

/--
Embedding of `HistoryManager.get_entries` (src/furniture/admin/history.py,
lines 106–146): select the rows owned by the current user, add one
condition per provided (truthy) filter, `ORDER BY timestamp DESC LIMIT ?`.
`limit` is a natural number (every call site passes a nonnegative literal;
SQLite treats a negative LIMIT as "no limit").
-/
def Manager.get_entries (m : Manager) (u : Option Nat) (limit : Nat)
    (action_type status : Option String)
    (start_date end_date : Option Nat) : List Row :=
  ((m.rows.filter (entryFilter u action_type status start_date end_date)).insertionSort
    tsDesc).take limit

end History

namespace FileHandler

/-- A directory entry as seen by `os.listdir` plus its `os.path.getmtime`:
file name and modification time (abstracted to `Nat`). -/
structure FileEntry where
  name : String
  mtime : Nat
deriving Repr, DecidableEq

/-- The set `image_extensions = {'.png', '.jpg', '.jpeg', '.webp', '.gif'}`
(src/web/utils/file_handler.py, line 151). -/
def image_extensions : List String :=
  [".png", ".jpg", ".jpeg", ".webp", ".gif"]

/-- Python `any(filename.lower().endswith(ext) for ext in image_extensions)`. -/
def isImageFile (filename : String) : Bool :=
  image_extensions.any (fun ext => Py.endsWith (Py.lower filename) ext)

/-- Newest-first order used by `image_files.sort(key=..getmtime, reverse=True)`. -/
def mtimeDesc (a b : FileEntry) : Prop := b.mtime ≤ a.mtime

instance : DecidableRel mtimeDesc := fun a b => Nat.decLe _ _

instance : IsTotal FileEntry mtimeDesc := ⟨fun a b => Nat.le_total b.mtime a.mtime⟩

instance : IsTrans FileEntry mtimeDesc := ⟨fun _ _ _ hab hbc => Nat.le_trans hbc hab⟩

/-- The image entries of the folder, newest first (the list `image_files`
right after the `sort` call, before the paths are formed). -/
def userImageEntries (files : List FileEntry) : List FileEntry :=
  (files.filter (fun f => isImageFile f.name)).insertionSort mtimeDesc

/--
Embedding of `get_user_images` (src/web/utils/file_handler.py,
lines 135–162).  The folder's contents are `fs`: `none` when
`os.path.exists(dir_path)` is false, otherwise the `os.listdir` entries
with their modification times.  Paths are joined with `/`
(`os.path.join`).  Python sorts the joined paths by
`os.path.getmtime(path)`, which is the entry's mtime, so sorting the
entries first and joining afterwards is the same list.
-/
def get_user_images (workspace_dir folder : String)
    (fs : Option (List FileEntry)) : List String :=
  match fs with
  | none => []
  | some files =>
    (userImageEntries files).map
      (fun f => workspace_dir ++ "/" ++ folder ++ "/" ++ f.name)

end FileHandler

namespace Analyzer

/-- Python `{**a, **b}` on string-keyed dicts (JSON objects from the Gemini
responses, values abstracted to `String`): the keys of `a` in order with
values overridden by `b` where present, followed by the keys of `b` that are
not in `a`, in order. -/
def pyDictMerge (a b : List (String × String)) : List (String × String) :=
  a.map (fun kv =>
    match b.lookup kv.1 with
    | some v => (kv.1, v)
    | none => kv)
  ++ b.filter (fun kv => (a.lookup kv.1).isNone)

/-- Python `os.path.basename`: the part after the last `/` (the whole string when
it contains no `/`). -/
def basename (p : String) : String :=
  String.mk ((p.toList.reverse.takeWhile (fun c => c ≠ '/')).reverse)

/-- Index of the last `.` in a character list, if any. -/
def lastDotPos : List Char → Option Nat
  | [] => none
  | c :: rest =>
    match lastDotPos rest with
    | some i => some (i + 1)
    | none => if c = '.' then some 0 else none

/-- Python `os.path.splitext(filename)[0]`: drop the extension after the last dot,
except that a dot preceded only by dots (a leading-dot name like `.bashrc`)
does not start an extension. -/
def splitextBase (s : String) : String :=
  match lastDotPos s.toList with
  | some i =>
    if (s.toList.take i).any (fun c => c ≠ '.')
    then String.mk (s.toList.take i)
    else s
  | none => s

/-- The parsed JSON responses of the four Gemini calls made by
`ImageAnalyzer.analyze_image`: `category_data` (step 1),
`product_attributes` (step 2; `{}` when the category has no attribute
config), `common_attributes` (step 3), and `description_data` (step 4).
The network calls and `json.loads` are external, so the parsed values are
inputs of the model; JSON objects are association lists with `String`
values. -/
structure GeminiResponses where
  category_data : List (String × String)
  product_attributes : List (String × String)
  common_attributes : List (String × String)
  description_data : List (String × String)

/-- The `result` dictionary compiled by `ImageAnalyzer.analyze_image`
(src/core/image_analyzer.py, lines 95–106). -/
structure AnalysisResult where
  image_path : String
  filename : String
  brand : String
  category : String
  sub_category : String
  category_data : List (String × String)
  product_attributes : List (String × String)
  common_attributes : List (String × String)
  all_attributes : List (String × String)
  description : String

/--
Embedding of `ImageAnalyzer.analyze_image` (src/core/image_analyzer.py,
lines 44–120) together with `_save_metadata` (lines 236–247).  Returns the
`result` dictionary and the list of file writes performed:
`_save_metadata` writes the JSON serialization of `result` to
`os.path.join(output_dir, f"{base}.json")` with
`base = os.path.splitext(result['filename'])[0]`; the write's content is
modelled as the result value itself.

```python
main_category = category_data.get('category', '')
sub_category = category_data.get('sub_category', '')
...
all_attributes = {**product_attributes, **common_attributes}
description = description_data.get("description", "")
result = {...}
if save_metadata:
    self._save_metadata(result)
```
-/
def analyze_image (output_dir : String) (resp : GeminiResponses)
    (image_path brand : String) (save_metadata : Bool) :
    AnalysisResult × List (String × AnalysisResult) :=
  let main_category := (resp.category_data.lookup "category").getD ""
  let sub_category := (resp.category_data.lookup "sub_category").getD ""
  let all_attributes := pyDictMerge resp.product_attributes resp.common_attributes
  let description := (resp.description_data.lookup "description").getD ""
  let result : AnalysisResult :=
    { image_path := image_path
      filename := basename image_path
      brand := brand
      category := main_category
      sub_category := sub_category
      category_data := resp.category_data
      product_attributes := resp.product_attributes
      common_attributes := resp.common_attributes
      all_attributes := all_attributes
      description := description }
  let writes :=
    if save_metadata then
      [(output_dir ++ "/" ++ splitextBase result.filename ++ ".json", result)]
    else []
  (result, writes)

/--
Embedding of `ImageAnalyzer.analyze_batch` (src/core/image_analyzer.py,
lines 122–153):

```python
for idx, image_path in enumerate(image_paths, 1):
    try:
        result = self.analyze_image(image_path, brand=brand)
        results.append(result)
    except Exception as e:
        logger.warning(...)
        continue
return results
```

The per-image analysis (which may raise) is the oracle
`analyze : String → Except E AnalysisResult`; `brand` is fixed by the
caller and absorbed into the oracle.
-/
def analyze_batch (analyze : String → Except E AnalysisResult) :
    List String → List AnalysisResult
  | [] => []
  | p :: rest =>
    match analyze p with
    | .ok r => r :: analyze_batch analyze rest
    | .error _ => analyze_batch analyze rest

lemma lookup_filter_key (q : String → Bool) (b : List (String × String))
    (k : String) :
    (b.filter (fun kv => q kv.1)).lookup k = if q k then b.lookup k else none := by
  induction b with
  | nil => simp
  | cons kv b ih =>
    obtain ⟨k', v'⟩ := kv
    by_cases hk : k = k'
    · subst hk
      cases hq : q k
      · rw [List.filter_cons_of_neg (by simpa using hq)]
        simp [ih, hq]
      · rw [List.filter_cons_of_pos (by simpa using hq)]
        simp [List.lookup, hq]
    · have hbeq : (k == k') = false := by simp [hk]
      cases hq : q k'
      · rw [List.filter_cons_of_neg (by simpa using hq)]
        simp [ih, List.lookup, hbeq]
      · rw [List.filter_cons_of_pos (by simpa using hq)]
        simp [List.lookup, hbeq, ih]

lemma lookup_map_override (b a : List (String × String)) (k : String) :
    ((a.map (fun kv =>
        match b.lookup kv.1 with
        | some v => (kv.1, v)
        | none => kv)).lookup k)
    = (a.lookup k).map (fun va => (b.lookup k).getD va) := by
  induction a with
  | nil => simp
  | cons kv a ih =>
    obtain ⟨k', v'⟩ := kv
    by_cases hk : k = k'
    · subst hk
      cases hb : b.lookup k <;> simp [List.lookup, hb]
    · have hbeq : (k == k') = false := by simp [hk]
      cases hb : b.lookup k' <;> simp [List.lookup, hb, hbeq, ih]

lemma pyDictMerge_lookup (a b : List (String × String)) (k : String) :
    (pyDictMerge a b).lookup k
    = (b.lookup k).orElse (fun _ => a.lookup k) := by
  unfold pyDictMerge
  rw [List.lookup_append, lookup_map_override,
    lookup_filter_key (fun k => (a.lookup k).isNone) b k]
  cases ha : a.lookup k <;> cases hb : b.lookup k <;>
    simp [ha, hb, Option.orElse]

end Analyzer

namespace Editor

/-- Drawing state of `DrawableGraphicsView` (src/cosmetics/editor.py):
`mask_image` (a `QImage`, abstracted to an arbitrary type `α` with decidable
equality for the `!=` comparison), `undo_stack`, `redo_stack`,
`image_before_draw` and the `drawing` flag.  Python's `list.append`/`pop()`
treat the end of the list as the stack top; the model keeps the top at the
head, so `append` is `::`, `pop()` takes the head, and `pop(0)` (remove the
oldest element) is `dropLast`. -/
structure Canvas (α : Type) where
  mask_image : α
  undo_stack : List α
  redo_stack : List α
  image_before_draw : Option α
  drawing : Bool
deriving Repr, DecidableEq

/-- Embedding of `DrawableGraphicsView.undo` (lines 135-140):

```python
if self.undo_stack:
    self.redo_stack.append(self.mask_image.copy())
    self.mask_image = self.undo_stack.pop()
```
-/
def undo (s : Canvas α) : Canvas α :=
  match s.undo_stack with
  | [] => s
  | top :: rest =>
    { s with
      redo_stack := s.mask_image :: s.redo_stack
      mask_image := top
      undo_stack := rest }

/-- Embedding of `DrawableGraphicsView.redo` (lines 142-147), the mirror image of
`undo`. -/
def redo (s : Canvas α) : Canvas α :=
  match s.redo_stack with
  | [] => s
  | top :: rest =>
    { s with
      undo_stack := s.mask_image :: s.undo_stack
      mask_image := top
      redo_stack := rest }

/-- The left-button branch of `DrawableGraphicsView.mouseReleaseEvent`
(lines 188–201): the end of a brush/eraser stroke.

```python
if event.button() == Qt.LeftButton and self.drawing:
    self.drawing = False
    if self.image_before_draw is not None and self.image_before_draw != self.mask_image:
        self.undo_stack.append(self.image_before_draw)
        self.redo_stack.clear()
        if len(self.undo_stack) > 20:
            self.undo_stack.pop(0)
```
-/
def mouseRelease [DecidableEq α] (s : Canvas α) : Canvas α :=
  if s.drawing then
    match s.image_before_draw with
    | some before =>
      if before ≠ s.mask_image then
        let undo1 := before :: s.undo_stack
        let undo2 := if undo1.length > 20 then undo1.dropLast else undo1
        { s with drawing := false, undo_stack := undo2, redo_stack := [] }
      else { s with drawing := false }
    | none => { s with drawing := false }
  else s

end Editor

/-!
## Claim theorems
-/

/--
C1: For every Gemini API wrapper call guarded by the retry helper
(`GeminiClient._retry_with_delay` and the `Gemini.retry_with_delay`
decorator, both configured with `max_retries = 3`, `initial_delay = 1`):
a raising call is retried with a doubling delay starting at 1 second
(sleeping 1s before the second attempt and 2s before the third), a
succeeding attempt's result is returned unchanged with no further attempts,
and when all three attempts raise, the third attempt's exception is
re-raised.  `f n` is the outcome of attempt `n`; the first component lists
the `time.sleep` durations performed.
-/
theorem c1_retry_with_delay_spec {E A : Type} (f : Nat → Except E A) :
    (∀ a, f 0 = .ok a →
      Retry.retry_with_delay f = ([], some (.ok a))) ∧
    (∀ e a, f 0 = .error e → f 1 = .ok a →
      Retry.retry_with_delay f = ([1], some (.ok a))) ∧
    (∀ e0 e1 a, f 0 = .error e0 → f 1 = .error e1 → f 2 = .ok a →
      Retry.retry_with_delay f = ([1, 2], some (.ok a))) ∧
    (∀ e0 e1 e2, f 0 = .error e0 → f 1 = .error e1 → f 2 = .error e2 →
      Retry.retry_with_delay f = ([1, 2], some (.error e2))) := by
  refine ⟨?_, ?_, ?_, ?_⟩
  · intro a h0
    simp [Retry.retry_with_delay, Retry.retryGo, h0]
  · intro e a h0 h1
    simp [Retry.retry_with_delay, Retry.retryGo, h0, h1]
  · intro e0 e1 a h0 h1 h2
    simp [Retry.retry_with_delay, Retry.retryGo, h0, h1, h2]
  · intro e0 e1 e2 h0 h1 h2
    simp [Retry.retry_with_delay, Retry.retryGo, h0, h1, h2]

/-- Witness for C1: a call that raises once and then succeeds sleeps 1s and
returns the second attempt's value. -/
theorem c1_retry_with_delay_spec_witness :
    (fun n => if n = 0 then (Except.error "boom" : Except String Nat)
              else .ok 7) 0 = .error "boom" ∧
    (fun n => if n = 0 then (Except.error "boom" : Except String Nat)
              else .ok 7) 1 = .ok 7 ∧
    Retry.retry_with_delay
      (fun n => if n = 0 then (Except.error "boom" : Except String Nat)
                else .ok 7) = ([1], some (.ok 7)) :=
  ⟨rfl, rfl,
    (c1_retry_with_delay_spec _).2.1 "boom" 7 rfl rfl⟩

/--
C2 (amended): `HistoryManager` does enforce a fixed per-user bound on the
stored history: `__init__` sets `max_entries = 1000`, and after every
`add_entry` the acting user's stored entry count is
`min(previous count + 1, max_entries)` — when the insert pushes the count
over `max_entries`, the oldest entries are deleted to bring it back down.
-/
theorem c2_history_capped :
    History.Manager.init.max_entries = 1000 ∧
    ∀ (m : History.Manager) (u : Option Nat) (now : Nat) (a s : String),
      (m.add_entry u now a s).count u = min (m.count u + 1) m.max_entries :=
  ⟨rfl, History.count_add_entry⟩

/--
Counterexample to C2 as stated: the claim says no fixed upper bound
constrains the stored history and no operation deletes old entries, which
would make the count after `n` `add_entry` calls equal `n`; but after 1001
`add_entry` calls on a fresh manager only 1000 entries remain — `add_entry`
deleted the oldest one.
-/
theorem c2_history_capped_counterexample :
    (History.addN none 1001).count none = 1000 := by
  rw [History.count_addN]
  omega

/--
C3: `_extract_attribute_value_reason` resolves an attribute key in exactly
three ordered stages — exact match, hardcoded Korean/English synonym lists,
comparison after lowercasing and removing spaces and `·` — returning the
first stage's non-empty parsed (value, reason), and falling back to
`('', '<attr_key> 정보 없음')`: the loop-with-early-return implementation
equals the three-stage specification `extractSpec` on every input.
-/
theorem c3_extract_three_stages
    (attributes : List (String × SamsungAnalyzer.AttrData)) (attr_key : String) :
    SamsungAnalyzer.extract_attribute_value_reason attributes attr_key
    = SamsungAnalyzer.extractSpec attributes attr_key := by
  unfold SamsungAnalyzer.extract_attribute_value_reason SamsungAnalyzer.extractSpec
    SamsungAnalyzer.stage1 SamsungAnalyzer.stage2 SamsungAnalyzer.stage3
  rw [SamsungAnalyzer.tryMappedKeys_eq, SamsungAnalyzer.tryCleanKeys_eq]
  exact SamsungAnalyzer.extract_chain (attributes.lookup attr_key) _ _ attr_key

/--
C4: `UserManager.authenticate(username, password)` returns `True` iff the
`users` table contains an active row whose username or email equals the
first argument and whose `password_hash` equals the stored digest of the
password (`hash`, modelling `hash_password`'s SHA-256 hex digest); on
success `current_user` is set to the matched row's id/username/email/company
and that row's `last_login` is updated; on failure it returns `False` and
the state — `current_user` included — is unchanged.
-/
theorem c4_authenticate_spec (hash : String → String) (st : Auth.State)
    (username password : String) (now : Nat) :
    ((Auth.authenticate hash st username password now).1 = true ↔
      ∃ u ∈ st.users, (u.username = username ∨ u.email = username) ∧
        u.password_hash = hash password ∧ u.is_active = true) ∧
    ((Auth.authenticate hash st username password now).1 = false →
      (Auth.authenticate hash st username password now).2 = st) ∧
    ((Auth.authenticate hash st username password now).1 = true →
      ∃ u ∈ st.users,
        (u.username = username ∨ u.email = username) ∧
        u.password_hash = hash password ∧ u.is_active = true ∧
        (Auth.authenticate hash st username password now).2.current_user =
          some { id := u.id, username := u.username, email := u.email,
                 company := u.company } ∧
        (Auth.authenticate hash st username password now).2.users =
          st.users.map (fun v =>
            if v.id = u.id then { v with last_login := some now } else v)) := by
  cases hf : st.users.find? (Auth.authPred hash username password) with
  | none =>
    have hres : Auth.authenticate hash st username password now = (false, st) := by
      simp [Auth.authenticate, hf]
    have hnone : ∀ u ∈ st.users,
        ¬ ((u.username = username ∨ u.email = username) ∧
          u.password_hash = hash password ∧ u.is_active = true) := by
      intro u hu hcon
      have := List.find?_eq_none.mp hf u hu
      exact this ((Auth.authPred_iff hash username password u).mpr hcon)
    constructor
    · rw [hres]
      simp only [Bool.false_eq_true, false_iff]
      intro ⟨u, hu, hcon⟩
      exact hnone u hu hcon
    · exact ⟨fun _ => by rw [hres], fun htrue => by rw [hres] at htrue; simp at htrue⟩
  | some u =>
    have hp := List.find?_some hf
    have hmem := List.mem_of_find?_eq_some hf
    have hprops := (Auth.authPred_iff hash username password u).mp hp
    have hres : Auth.authenticate hash st username password now =
        (true,
         { users := st.users.map (fun v =>
             if v.id = u.id then { v with last_login := some now } else v),
           current_user := some
             { id := u.id, username := u.username, email := u.email,
               company := u.company } }) := by
      simp [Auth.authenticate, hf]
    refine ⟨?_, ?_, ?_⟩
    · rw [hres]
      simp only [true_iff]
      exact ⟨u, hmem, hprops⟩
    · intro hfalse
      rw [hres] at hfalse
      simp at hfalse
    · intro _
      exact ⟨u, hmem, hprops.1, hprops.2.1, hprops.2.2, by rw [hres], by rw [hres]⟩

/-- A concrete digest function, user and manager state used to witness the
authentication claims. -/
def c4Hash : String → String := fun s => s ++ "#h"

def c4User : Auth.User :=
  { id := 1, username := "admin", email := "admin@itcen.com",
    password_hash := "123456#h", company := "admin",
    last_login := none, is_active := true }

def c4State : Auth.State := { users := [c4User], current_user := none }

/-- Witness for C4: on a one-user table, logging in with the right password
succeeds and fills `current_user`; a wrong password fails and leaves the
state unchanged. -/
theorem c4_authenticate_spec_witness :
    ((Auth.authenticate c4Hash c4State "admin" "123456" 5).1 = true ∧
      (∃ u ∈ c4State.users,
        (Auth.User.username u = "admin" ∨ Auth.User.email u = "admin") ∧
        Auth.User.password_hash u = c4Hash "123456" ∧
        Auth.User.is_active u = true ∧
        (Auth.authenticate c4Hash c4State "admin" "123456" 5).2.current_user =
          some { id := u.id, username := u.username, email := u.email,
                 company := u.company } ∧
        (Auth.authenticate c4Hash c4State "admin" "123456" 5).2.users =
          c4State.users.map (fun v =>
            if v.id = u.id then { v with last_login := some 5 } else v))) ∧
    ((Auth.authenticate c4Hash c4State "admin" "wrong" 5).1 = false ∧
      (Auth.authenticate c4Hash c4State "admin" "wrong" 5).2 = c4State) :=
  ⟨⟨by decide,
    (c4_authenticate_spec c4Hash c4State "admin" "123456" 5).2.2 (by decide)⟩,
   ⟨by decide,
    (c4_authenticate_spec c4Hash c4State "admin" "wrong" 5).2.1 (by decide)⟩⟩

/--
C5: `UserManager.register_user` inserts exactly one `users` row storing the
digest of the password (`hash`, modelling the SHA-256 hex digest) and
returns `(True, message)`; when the username or email already exists, the
UNIQUE-constraint `IntegrityError` is caught rather than propagated, the
returned `(False, message)` names the duplicated field (사용자명 for a
duplicate username, 이메일 for a duplicate email), and the table is left
unchanged.
-/
theorem c5_register_user_spec (hash : String → String) (st : Auth.State)
    (username email password company : String) :
    ((∀ u ∈ st.users, u.username ≠ username) →
      (∀ u ∈ st.users, u.email ≠ email) →
      Auth.register_user hash st username email password company =
        ((true, "회원가입이 완료되었습니다."),
         { st with users := st.users ++
             [{ id := Auth.nextUserId st.users, username := username,
                email := email, password_hash := hash password,
                company := company, last_login := none, is_active := true }] })) ∧
    ((∃ u ∈ st.users, u.username = username) →
      Auth.register_user hash st username email password company =
        ((false, "이미 존재하는 사용자명입니다."), st)) ∧
    ((∀ u ∈ st.users, u.username ≠ username) →
      (∃ u ∈ st.users, u.email = email) →
      Auth.register_user hash st username email password company =
        ((false, "이미 등록된 이메일입니다."), st)) := by
  have husermsg : Auth.handleIntegrity (Auth.integrityMsg "username")
      = (false, "이미 존재하는 사용자명입니다.") := by rfl
  have hemailmsg : Auth.handleIntegrity (Auth.integrityMsg "email")
      = (false, "이미 등록된 이메일입니다.") := by rfl
  refine ⟨?_, ?_, ?_⟩
  · intro hnameok hemailok
    have h1 : st.users.any (fun u => u.username == username) = false := by
      rw [List.any_eq_false]
      intro u hu
      simpa using hnameok u hu
    have h2 : st.users.any (fun u => u.email == email) = false := by
      rw [List.any_eq_false]
      intro u hu
      simpa using hemailok u hu
    simp [Auth.register_user, h1, h2]
  · intro hdup
    have h1 : st.users.any (fun u => u.username == username) = true := by
      rw [List.any_eq_true]
      obtain ⟨u, hu, he⟩ := hdup
      exact ⟨u, hu, by simpa using he⟩
    simp [Auth.register_user, h1, husermsg]
  · intro hnameok hdup
    have h1 : st.users.any (fun u => u.username == username) = false := by
      rw [List.any_eq_false]
      intro u hu
      simpa using hnameok u hu
    have h2 : st.users.any (fun u => u.email == email) = true := by
      rw [List.any_eq_true]
      obtain ⟨u, hu, he⟩ := hdup
      exact ⟨u, hu, by simpa using he⟩
    simp [Auth.register_user, h1, h2, hemailmsg]

/-- Witness for C5: registering a fresh user on the one-user table appends
exactly one row with the hashed password; re-registering the existing
username (or the existing email under a fresh username) is rejected with
the field-specific message and leaves the table unchanged. -/
theorem c5_register_user_spec_witness :
    ((∀ u ∈ c4State.users, Auth.User.username u ≠ "newbie") ∧
     (∀ u ∈ c4State.users, Auth.User.email u ≠ "new@x.com") ∧
     Auth.register_user c4Hash c4State "newbie" "new@x.com" "pw" "co" =
       ((true, "회원가입이 완료되었습니다."),
        { c4State with users := c4State.users ++
            [{ id := Auth.nextUserId c4State.users, username := "newbie",
               email := "new@x.com", password_hash := c4Hash "pw",
               company := "co", last_login := none, is_active := true }] })) ∧
    ((∃ u ∈ c4State.users, Auth.User.username u = "admin") ∧
     Auth.register_user c4Hash c4State "admin" "new@x.com" "pw" "co" =
       ((false, "이미 존재하는 사용자명입니다."), c4State)) ∧
    ((∀ u ∈ c4State.users, Auth.User.username u ≠ "newbie") ∧
     (∃ u ∈ c4State.users, Auth.User.email u = "admin@itcen.com") ∧
     Auth.register_user c4Hash c4State "newbie" "admin@itcen.com" "pw" "co" =
       ((false, "이미 등록된 이메일입니다."), c4State)) :=
  ⟨⟨by decide, by decide,
    (c5_register_user_spec c4Hash c4State "newbie" "new@x.com" "pw" "co").1
      (by decide) (by decide)⟩,
   ⟨by decide,
    (c5_register_user_spec c4Hash c4State "admin" "new@x.com" "pw" "co").2.1
      (by decide)⟩,
   ⟨by decide, by decide,
    (c5_register_user_spec c4Hash c4State "newbie" "admin@itcen.com" "pw" "co").2.2
      (by decide) (by decide)⟩⟩

/--
C6: `HistoryManager.get_entries(limit, action_type, status, start_date,
end_date)` returns at most `limit` entries; every returned entry satisfies
each provided filter (equal `action_type`, equal `status`, timestamp within
the date bounds), belongs to the current user (or has NULL `user_id` when
nobody is logged in), and the result is ordered by timestamp descending.
-/
theorem c6_get_entries_spec (m : History.Manager) (u : Option Nat)
    (limit : Nat) (action_type status : Option String)
    (start_date end_date : Option Nat) :
    (m.get_entries u limit action_type status start_date end_date).length ≤ limit ∧
    List.Sorted History.tsDesc
      (m.get_entries u limit action_type status start_date end_date) ∧
    ∀ r ∈ m.get_entries u limit action_type status start_date end_date,
      r ∈ m.rows ∧ History.ownedBy u r = true ∧
      (∀ a, action_type = some a → a ≠ "" → r.action_type = a) ∧
      (∀ s, status = some s → s ≠ "" → r.status = s) ∧
      (∀ d, start_date = some d → d ≤ r.timestamp) ∧
      (∀ d, end_date = some d → r.timestamp ≤ d) := by
  refine ⟨?_, ?_, ?_⟩
  · exact List.length_take_le _ _
  · exact List.Pairwise.sublist (List.take_sublist _ _)
      (List.sorted_insertionSort History.tsDesc _)
  · intro r hr
    have hsort : r ∈ (m.rows.filter
        (History.entryFilter u action_type status start_date end_date)).insertionSort
        History.tsDesc :=
      List.mem_of_mem_take hr
    have hfil : r ∈ m.rows.filter
        (History.entryFilter u action_type status start_date end_date) :=
      (List.perm_insertionSort History.tsDesc _).mem_iff.mp hsort
    have hmem : r ∈ m.rows := List.mem_of_mem_filter hfil
    have hpred : History.entryFilter u action_type status start_date end_date r
        = true := List.of_mem_filter hfil
    simp only [History.entryFilter, Bool.and_eq_true] at hpred
    obtain ⟨⟨⟨⟨howned, hact⟩, hstat⟩, hstart⟩, hend⟩ := hpred
    refine ⟨hmem, howned, ?_, ?_, ?_, ?_⟩
    · intro a ha hne
      subst ha
      rw [if_pos (by simpa [History.truthyStr] using hne)] at hact
      simpa using hact
    · intro s hs hne
      subst hs
      rw [if_pos (by simpa [History.truthyStr] using hne)] at hstat
      simpa using hstat
    · intro d hd
      subst hd
      simpa using hstart
    · intro d hd
      subst hd
      simpa using hend

/-- Concrete history rows and manager used to witness the query claims. -/
def c6r1 : History.Row :=
  { id := 1, user_id := some 1, timestamp := 10,
    action_type := "gen", status := "success" }

def c6r2 : History.Row :=
  { id := 2, user_id := some 1, timestamp := 20,
    action_type := "gen", status := "fail" }

def c6r3 : History.Row :=
  { id := 3, user_id := some 2, timestamp := 30,
    action_type := "edit", status := "success" }

def c6m : History.Manager := { rows := [c6r1, c6r2, c6r3], max_entries := 1000 }

/-- Witness for C6: with `limit = 1`, an `action_type` filter and date
bounds, user 1's query returns the single newest matching row, which
satisfies all the provided filters. -/
theorem c6_get_entries_spec_witness :
    c6r2 ∈ c6m.get_entries (some 1) 1 (some "gen") none (some 5) (some 25) ∧
    (c6m.get_entries (some 1) 1 (some "gen") none (some 5) (some 25)).length ≤ 1 ∧
    History.Row.action_type c6r2 = "gen" ∧
    5 ≤ History.Row.timestamp c6r2 ∧
    History.Row.timestamp c6r2 ≤ 25 ∧
    History.ownedBy (some 1) c6r2 = true :=
  ⟨by decide,
   (c6_get_entries_spec c6m (some 1) 1 (some "gen") none (some 5) (some 25)).1,
   ((c6_get_entries_spec c6m (some 1) 1 (some "gen") none (some 5)
      (some 25)).2.2 c6r2 (by decide)).2.2.1 "gen" rfl (by decide),
   ((c6_get_entries_spec c6m (some 1) 1 (some "gen") none (some 5)
      (some 25)).2.2 c6r2 (by decide)).2.2.2.2.1 5 rfl,
   ((c6_get_entries_spec c6m (some 1) 1 (some "gen") none (some 5)
      (some 25)).2.2 c6r2 (by decide)).2.2.2.2.2 25 rfl,
   ((c6_get_entries_spec c6m (some 1) 1 (some "gen") none (some 5)
      (some 25)).2.2 c6r2 (by decide)).2.1⟩

/--
C7 (amended): `get_user_images` returns exactly the paths of the saved
image files — any file whose lowercased name ends in `.png`, `.jpg`,
`.jpeg`, `.webp` or `.gif`, not only PNG — in that folder, sorted by file
modification time newest first, and returns the empty list when the folder
does not exist.
-/
theorem c7_get_user_images_spec (w folder : String)
    (files : List FileHandler.FileEntry) :
    FileHandler.get_user_images w folder none = [] ∧
    List.Sorted FileHandler.mtimeDesc (FileHandler.userImageEntries files) ∧
    FileHandler.get_user_images w folder (some files) =
      (FileHandler.userImageEntries files).map
        (fun f => w ++ "/" ++ folder ++ "/" ++ f.name) ∧
    (∀ p, p ∈ FileHandler.get_user_images w folder (some files) ↔
      ∃ e ∈ files, FileHandler.isImageFile e.name = true ∧
        p = w ++ "/" ++ folder ++ "/" ++ e.name) := by
  refine ⟨rfl, List.sorted_insertionSort _ _, rfl, ?_⟩
  intro p
  constructor
  · intro hp
    obtain ⟨e, he, rfl⟩ := List.mem_map.mp hp
    have hef : e ∈ files.filter (fun f => FileHandler.isImageFile f.name) :=
      (List.perm_insertionSort FileHandler.mtimeDesc _).mem_iff.mp he
    exact ⟨e, (List.mem_filter.mp hef).1, (List.mem_filter.mp hef).2, rfl⟩
  · rintro ⟨e, he, him, rfl⟩
    exact List.mem_map.mpr
      ⟨e, (List.perm_insertionSort FileHandler.mtimeDesc _).mem_iff.mpr
        (List.mem_filter.mpr ⟨he, him⟩), rfl⟩

/-- Witness for C7: a folder with a PNG, a text file and a JPG yields
exactly the two image paths; the older PNG's path is in the result. -/
theorem c7_get_user_images_spec_witness :
    (⟨"a.PNG", 1⟩ : FileHandler.FileEntry) ∈
      [(⟨"a.PNG", 1⟩ : FileHandler.FileEntry), ⟨"b.txt", 2⟩, ⟨"c.jpg", 3⟩] ∧
    FileHandler.isImageFile "a.PNG" = true ∧
    "ws/generated/a.PNG" ∈ FileHandler.get_user_images "ws" "generated"
      (some [⟨"a.PNG", 1⟩, ⟨"b.txt", 2⟩, ⟨"c.jpg", 3⟩]) :=
  ⟨by decide, by decide,
   ((c7_get_user_images_spec "ws" "generated"
      [⟨"a.PNG", 1⟩, ⟨"b.txt", 2⟩, ⟨"c.jpg", 3⟩]).2.2.2
      "ws/generated/a.PNG").mpr ⟨⟨"a.PNG", 1⟩, by decide, by decide, by decide⟩⟩

/--
Counterexample to C7 as stated: the claim restricts the returned thumbnails
to saved PNG files, but a folder containing only `photo.jpg` — not a PNG —
still yields its path: `get_user_images` accepts the extensions
`.png/.jpg/.jpeg/.webp/.gif`.
-/
theorem c7_get_user_images_counterexample :
    FileHandler.get_user_images "ws" "generated" (some [⟨"photo.jpg", 3⟩]) =
      ["ws/generated/photo.jpg"] ∧
    Py.endsWith (Py.lower "photo.jpg") ".png" = false :=
  ⟨by decide, by decide⟩

/--
C8: with `save_metadata=True`, `ImageAnalyzer.analyze_image` performs
exactly one write: the JSON sidecar named `<image basename without
extension>.json` inside `output_dir`, whose content is the returned result
dictionary (which carries `category`, the attribute dictionaries and
`description`); and the result's `all_attributes` is the union
`{**product_attributes, **common_attributes}`, in which
`common_attributes` wins on duplicate keys.
-/
theorem c8_analyze_image_metadata (output_dir : String)
    (resp : Analyzer.GeminiResponses) (image_path brand : String) :
    (Analyzer.analyze_image output_dir resp image_path brand true).2 =
      [(output_dir ++ "/" ++
          Analyzer.splitextBase (Analyzer.basename image_path) ++ ".json",
        (Analyzer.analyze_image output_dir resp image_path brand true).1)] ∧
    (Analyzer.analyze_image output_dir resp image_path brand false).2 = [] ∧
    (Analyzer.analyze_image output_dir resp image_path brand true).1.all_attributes
      = Analyzer.pyDictMerge resp.product_attributes resp.common_attributes ∧
    ∀ k,
      ((Analyzer.analyze_image output_dir resp image_path brand
        true).1.all_attributes.lookup k)
      = ((resp.common_attributes.lookup k).orElse
          (fun _ => resp.product_attributes.lookup k)) :=
  ⟨rfl, rfl, rfl,
   fun k => Analyzer.pyDictMerge_lookup resp.product_attributes
     resp.common_attributes k⟩

/--
C9: in `DrawableGraphicsView`, whenever the undo stack is non-empty,
`undo()` followed by `redo()` restores `mask_image`, `undo_stack` and
`redo_stack` (the whole canvas state); and finishing a stroke that changed
the mask clears `redo_stack` and keeps `undo_stack` at 20 entries or fewer.
-/
theorem c9_undo_redo_spec {α : Type} [DecidableEq α] (s : Editor.Canvas α) :
    (s.undo_stack ≠ [] → Editor.redo (Editor.undo s) = s) ∧
    (s.drawing = true → ∀ b, s.image_before_draw = some b →
      b ≠ s.mask_image →
      (Editor.mouseRelease s).redo_stack = [] ∧
      (s.undo_stack.length ≤ 20 →
        (Editor.mouseRelease s).undo_stack.length ≤ 20)) := by
  obtain ⟨m, us, rs, ib, dr⟩ := s
  constructor
  · intro hne
    cases us with
    | nil => simp at hne
    | cons t rest => rfl
  · intro hdraw b hib hneq
    simp only at hdraw hib hneq
    subst hdraw
    subst hib
    unfold Editor.mouseRelease
    simp only [if_pos, hneq, ne_eq, not_false_eq_true, if_true]
    constructor
    · trivial
    · intro hlen
      simp only [List.length_cons] at *
      split_ifs with hgt
      · simp only [List.length_dropLast, List.length_cons]
        omega
      · simp only [List.length_cons]
        omega

/-- Concrete canvas used to witness the undo/redo claims. -/
def c9s : Editor.Canvas Nat :=
  { mask_image := 5, undo_stack := [3], redo_stack := [7],
    image_before_draw := some 9, drawing := true }

/-- Witness for C9: on a canvas with one undo entry, undo-then-redo is the
identity, and finishing a changing stroke clears the redo stack and keeps
the undo stack within 20 entries. -/
theorem c9_undo_redo_spec_witness :
    Editor.Canvas.undo_stack c9s ≠ [] ∧
    Editor.redo (Editor.undo c9s) = c9s ∧
    (Editor.mouseRelease c9s).redo_stack = [] ∧
    (Editor.mouseRelease c9s).undo_stack.length ≤ 20 :=
  ⟨by decide,
   (c9_undo_redo_spec c9s).1 (by decide),
   ((c9_undo_redo_spec c9s).2 rfl 9 rfl (by decide)).1,
   ((c9_undo_redo_spec c9s).2 rfl 9 rfl (by decide)).2 (by decide)⟩

/--
C10: `ImageAnalyzer.analyze_batch` returns the analysis results of exactly
the images whose analysis raised no exception, in input order — the loop
with `try/except: continue` equals `filterMap` of the per-image outcome, so
one failure never prevents later images from being analyzed.
-/
theorem c10_analyze_batch_spec {E : Type}
    (analyze : String → Except E Analyzer.AnalysisResult)
    (image_paths : List String) :
    Analyzer.analyze_batch analyze image_paths =
      image_paths.filterMap (fun p => (analyze p).toOption) := by
  induction image_paths with
  | nil => rfl
  | cons p rest ih =>
    unfold Analyzer.analyze_batch
    cases h : analyze p <;>
      simp [List.filterMap_cons, h, ih, Except.toOption]







